import Mathlib

/-!
Verification of the aftt-scraper job-orchestration and crawl engine.

The definitions below are shallow embeddings of the Python source:
* `src/database/queries.py` — ranking upserts and the `scrape_tasks` registry,
* `src/scraper/interclubs_scraper.py` — the division×week crawl coordinator
  with its retry/backoff loop, resume skipping and cancellation polling,
* `src/api/routers/scraping.py` and `src/api/routers/interclubs.py` — the
  job drivers around those.
-/

namespace AFTT

/-! ## Interclubs ranking upsert (`queries.py`)

`insert_interclubs_rankings_batch` / `insert_interclubs_ranking` execute

```
INSERT INTO interclubs_rankings (...)
VALUES (...)
ON CONFLICT(division_index, week, team_name) DO UPDATE SET
  division_name = excluded.division_name, rank = excluded.rank,
  played = excluded.played, wins = excluded.wins, losses = excluded.losses,
  draws = excluded.draws, forfeits = excluded.forfeits, points = excluded.points
```

with bind values built as `ranking.get('rank')`, `ranking.get('played', 0)`, …
A stored row is modelled with its nullable columns as `Option`.
-/

/-- A stored row of `interclubs_rankings` (nullable columns are `Option`). -/
structure RankingRow where
  division_index : Int
  division_name : Option String
  week : Int
  rank : Option Int
  team_name : String
  played : Option Int
  wins : Option Int
  losses : Option Int
  draws : Option Int
  forfeits : Option Int
  points : Option Int
deriving DecidableEq

/-- The bind values handed to the SQL statement (the `data = {...}` dict). -/
structure RankingParams where
  division_index : Int
  division_name : Option String
  week : Int
  rank : Option Int
  team_name : String
  played : Option Int
  wins : Option Int
  losses : Option Int
  draws : Option Int
  forfeits : Option Int
  points : Option Int
deriving DecidableEq

/-- The Python dict passed to `insert_interclubs_ranking(s_batch)`: an outer
`none` means the key is absent, `some none` a key explicitly set to `None`. -/
structure RankingDict where
  division_index : Option (Option Int)
  division_name : Option (Option String)
  week : Option (Option Int)
  rank : Option (Option Int)
  team_name : Option (Option String)
  played : Option (Option Int)
  wins : Option (Option Int)
  losses : Option (Option Int)
  draws : Option (Option Int)
  forfeits : Option (Option Int)
  points : Option (Option Int)
deriving DecidableEq

/-- The bind dict `data = {'division_index': ranking.get('division_index'), ...,
'played': ranking.get('played', 0), ...}`: the stats columns default to `0`
only when the key is absent; a key present as `None` binds SQL `NULL`.
The `NOT NULL` key columns must bind non-null values or SQLite raises,
hence the `Option` result. -/
def bindRanking (d : RankingDict) : Option RankingParams := do
  let di ← d.division_index.getD none
  let wk ← d.week.getD none
  let tn ← d.team_name.getD none
  some {
    division_index := di
    division_name := d.division_name.getD none
    week := wk
    rank := d.rank.getD none
    team_name := tn
    played := d.played.getD (some 0)
    wins := d.wins.getD (some 0)
    losses := d.losses.getD (some 0)
    draws := d.draws.getD (some 0)
    forfeits := d.forfeits.getD (some 0)
    points := d.points.getD (some 0) }

/-- The natural key `(division_index, week, team_name)`. -/
def rowKey (r : RankingRow) : Int × Int × String :=
  (r.division_index, r.week, r.team_name)

/-- Natural key of the incoming bind values. -/
def paramsKey (p : RankingParams) : Int × Int × String :=
  (p.division_index, p.week, p.team_name)

/-- The `DO UPDATE SET` clause: every listed column is set to the excluded
(new) value unconditionally — no `COALESCE` here, unlike
`insert_interclubs_division`. -/
def applyUpsert (p : RankingParams) (r : RankingRow) : RankingRow :=
  { r with
    division_name := p.division_name
    rank := p.rank
    played := p.played
    wins := p.wins
    losses := p.losses
    draws := p.draws
    forfeits := p.forfeits
    points := p.points }

/-- The row created on the plain-insert path. -/
def newRow (p : RankingParams) : RankingRow :=
  ⟨p.division_index, p.division_name, p.week, p.rank, p.team_name,
   p.played, p.wins, p.losses, p.draws, p.forfeits, p.points⟩

/-- One `INSERT ... ON CONFLICT(division_index, week, team_name) DO UPDATE`
against the table (the shared SQL of `insert_interclubs_ranking` and
`insert_interclubs_rankings_batch`): the unique index guarantees at most one
conflicting row, which is updated in place; otherwise the insert appends. -/
def upsertRanking : List RankingRow → RankingParams → List RankingRow
  | [], p => [newRow p]
  | r :: t, p =>
      if rowKey r = paramsKey p then applyUpsert p r :: t
      else r :: upsertRanking t p

/-- Function `insert_interclubs_rankings_batch`: the statement executed per record in
one transaction. -/
def insert_interclubs_rankings_batch (table : List RankingRow)
    (ps : List RankingParams) : List RankingRow :=
  ps.foldl upsertRanking table

/-- The natural keys stored in the table. -/
def tableKeys (table : List RankingRow) : List (Int × Int × String) :=
  table.map rowKey

/-- Look a row up by natural key. -/
def lookupKey (table : List RankingRow) (k : Int × Int × String) :
    Option RankingRow :=
  table.find? fun r => decide (rowKey r = k)

/-- Dict for team "A" with points 9 (all keys present). -/
def dictPoints9 : RankingDict :=
  ⟨some (some 0), some (some "Div 1"), some (some 1), some (some 1),
   some (some "A"), some (some 2), some (some 1), some (some 1),
   some (some 0), some (some 0), some (some 9)⟩

/-- Dict for team "A" whose `points` key is present but `None`. -/
def dictPointsNull : RankingDict := { dictPoints9 with points := some none }

/-- Bind values for team "A", points 9. -/
def paramsPoints9 : RankingParams :=
  ⟨0, some "Div 1", 1, some 1, "A", some 2, some 1, some 1,
   some 0, some 0, some 9⟩

/-- Bind values for team "A" with a `NULL` points column. -/
def paramsPointsNull : RankingParams := { paramsPoints9 with points := none }

/-- Bind values for team "A", points 12. -/
def paramsPoints12 : RankingParams := { paramsPoints9 with points := some 12 }

theorem rowKey_applyUpsert (p : RankingParams) (r : RankingRow) :
    rowKey (applyUpsert p r) = rowKey r := rfl

theorem rowKey_newRow (p : RankingParams) : rowKey (newRow p) = paramsKey p := rfl

theorem applyUpsert_applyUpsert (p : RankingParams) (r : RankingRow) :
    applyUpsert p (applyUpsert p r) = applyUpsert p r := rfl

theorem applyUpsert_newRow (p : RankingParams) :
    applyUpsert p (newRow p) = newRow p := rfl

theorem tableKeys_upsert_of_mem (table : List RankingRow) (p : RankingParams)
    (h : paramsKey p ∈ tableKeys table) :
    tableKeys (upsertRanking table p) = tableKeys table := by
  induction table with
  | nil => simp [tableKeys] at h
  | cons r t ih =>
      by_cases hk : rowKey r = paramsKey p
      · simp [upsertRanking, tableKeys, hk, rowKey_applyUpsert]
      · have hmem : paramsKey p ∈ tableKeys t := by
          rcases (by simpa [tableKeys] using h : paramsKey p = rowKey r ∨
              paramsKey p ∈ tableKeys t) with h1 | h1
          · exact absurd h1.symm hk
          · exact h1
        simp [upsertRanking, tableKeys, hk]
        simpa [tableKeys] using ih hmem

theorem tableKeys_upsert_of_not_mem (table : List RankingRow) (p : RankingParams)
    (h : paramsKey p ∉ tableKeys table) :
    tableKeys (upsertRanking table p) = tableKeys table ++ [paramsKey p] := by
  induction table with
  | nil => simp [upsertRanking, tableKeys, rowKey_newRow]
  | cons r t ih =>
      have hk : rowKey r ≠ paramsKey p := by
        intro hk; exact h (by simp [tableKeys, hk])
      have hmem : paramsKey p ∉ tableKeys t := by
        intro hm; exact h (by simp [tableKeys]; exact Or.inr (by simpa [tableKeys] using hm))
      simp [upsertRanking, tableKeys, hk]
      simpa [tableKeys] using ih hmem

theorem upsert_keys_nodup (table : List RankingRow) (p : RankingParams)
    (hnd : (tableKeys table).Nodup) :
    (tableKeys (upsertRanking table p)).Nodup := by
  by_cases hmem : paramsKey p ∈ tableKeys table
  · rw [tableKeys_upsert_of_mem table p hmem]; exact hnd
  · rw [tableKeys_upsert_of_not_mem table p hmem]
    refine hnd.append (List.nodup_singleton _) ?_
    intro a ha hb
    have hab : a = paramsKey p := by simpa using hb
    exact hmem (hab ▸ ha)

theorem upsert_idem (table : List RankingRow) (p : RankingParams) :
    upsertRanking (upsertRanking table p) p = upsertRanking table p := by
  induction table with
  | nil => simp [upsertRanking, rowKey_newRow, applyUpsert_newRow]
  | cons r t ih =>
      by_cases hk : rowKey r = paramsKey p
      · simp [upsertRanking, hk, rowKey_applyUpsert, applyUpsert_applyUpsert]
      · simp [upsertRanking, hk, ih]

theorem upsert_lookup (table : List RankingRow) (p : RankingParams) :
    lookupKey (upsertRanking table p) (paramsKey p)
      = some (applyUpsert p ((lookupKey table (paramsKey p)).getD (newRow p))) := by
  induction table with
  | nil => simp [upsertRanking, lookupKey, List.find?, rowKey_newRow, applyUpsert_newRow]
  | cons r t ih =>
      by_cases hk : rowKey r = paramsKey p
      · simp [upsertRanking, lookupKey, List.find?, hk, rowKey_applyUpsert]
      · simp [upsertRanking, lookupKey, List.find?, hk] at ih ⊢
        exact ih

theorem upsert_length (table : List RankingRow) (p : RankingParams) :
    (upsertRanking table p).length
      = if paramsKey p ∈ tableKeys table then table.length
        else table.length + 1 := by
  have h1 : (upsertRanking table p).length
      = (tableKeys (upsertRanking table p)).length :=
    (List.length_map _ _).symm
  by_cases hmem : paramsKey p ∈ tableKeys table
  · rw [h1, tableKeys_upsert_of_mem table p hmem, if_pos hmem, tableKeys,
      List.length_map]
  · rw [h1, tableKeys_upsert_of_not_mem table p hmem, if_neg hmem]
    simp [tableKeys]

/-- C1 counterexample: starting from an empty table, batch-upserting team "A"
with `points = 9` and then re-upserting team "A" with `points = None` leaves
the stored `points` column `NULL`, not `9`: the `DO UPDATE SET` clause of
`insert_interclubs_rankings_batch` overwrites every field with the new value
unconditionally, so a null field does regress the stored value (though no
duplicate row is created). -/
theorem upsert_null_overwrites_points :
    bindRanking dictPoints9 = some paramsPoints9 ∧
    bindRanking dictPointsNull = some paramsPointsNull ∧
    (insert_interclubs_rankings_batch
        (insert_interclubs_rankings_batch [] [paramsPoints9])
        [paramsPointsNull]).map (fun r => r.points) = [none] ∧
    (insert_interclubs_rankings_batch
        (insert_interclubs_rankings_batch [] [paramsPoints9])
        [paramsPointsNull]).length = 1 := by
  decide

/-- C1 amended: the ranking upsert is an idempotent merge by the natural key
`(division_index, week, team_name)` — re-upserting creates no duplicate row —
but the field-merge policy is last-write-wins: every field of the stored row
is replaced by the new record's value unconditionally, nulls included (there
is no prefer-non-null `COALESCE` merge in `insert_interclubs_rankings_batch`).
Upserting `points = 12` therefore does update `points` to 12. -/
theorem upsert_merge_last_write_wins (table : List RankingRow) (p : RankingParams)
    (hnd : (tableKeys table).Nodup) :
    (tableKeys (upsertRanking table p)).Nodup ∧
    upsertRanking (upsertRanking table p) p = upsertRanking table p ∧
    lookupKey (upsertRanking table p) (paramsKey p)
      = some (applyUpsert p ((lookupKey table (paramsKey p)).getD (newRow p))) ∧
    (upsertRanking table p).length
      = if paramsKey p ∈ tableKeys table then table.length
        else table.length + 1 :=
  ⟨upsert_keys_nodup table p hnd, upsert_idem table p,
   upsert_lookup table p, upsert_length table p⟩

/-- Witness for the amended C1 theorem: upserting team "A" with `points = 12`
over a table holding team "A" with `points = 9` keeps a single row and updates
`points` to 12. -/
theorem upsert_merge_last_write_wins_witness :
    ((tableKeys [newRow paramsPoints9]).Nodup ∧
      ((tableKeys (upsertRanking [newRow paramsPoints9] paramsPoints12)).Nodup ∧
        upsertRanking (upsertRanking [newRow paramsPoints9] paramsPoints12) paramsPoints12
          = upsertRanking [newRow paramsPoints9] paramsPoints12 ∧
        lookupKey (upsertRanking [newRow paramsPoints9] paramsPoints12)
            (paramsKey paramsPoints12)
          = some (applyUpsert paramsPoints12
              ((lookupKey [newRow paramsPoints9]
                  (paramsKey paramsPoints12)).getD (newRow paramsPoints12))) ∧
        (upsertRanking [newRow paramsPoints9] paramsPoints12).length
          = if paramsKey paramsPoints12 ∈ tableKeys [newRow paramsPoints9]
            then ([newRow paramsPoints9] : List RankingRow).length
            else ([newRow paramsPoints9] : List RankingRow).length + 1)) ∧
    (upsertRanking [newRow paramsPoints9] paramsPoints12).map (fun r => r.points)
      = [some 12] :=
  ⟨⟨by decide,
    upsert_merge_last_write_wins [newRow paramsPoints9] paramsPoints12 (by decide)⟩,
   by decide⟩

/-! ## Scrape-task registry (`queries.py` + `routers/scraping.py`)

`scrape_tasks` rows, `create_scrape_task`, `update_scrape_task` (which skips
every parameter passed as `None`), `get_current_scrape_task` (latest row with
`status = 'running'`) and the `/api/scrape/all` endpoint's check-then-create.
`finished` models whether `finished_at` has been set. -/

/-- A row of the `scrape_tasks` table. -/
structure TaskRow where
  id : Nat
  status : String
  trigger_type : String
  total_clubs : Int
  completed_clubs : Int
  total_players : Int
  errors_count : Int
  errors_detail : Option String
  current_club : Option String
  current_province : Option String
  finished : Bool
deriving DecidableEq

/-- The scrape-task store; `tasks` is kept in insertion (= `started_at`)
order and `nextId` plays `AUTOINCREMENT`. -/
structure Registry where
  tasks : List TaskRow
  nextId : Nat
deriving DecidableEq

/-- Function `create_scrape_task`: `INSERT INTO scrape_tasks (trigger_type, total_clubs,
status) VALUES (?, ?, 'running')` — the remaining columns take their schema
defaults (`0`, `NULL`). Returns the new row id. -/
def create_scrape_task (reg : Registry) (trigger : String) (total : Int) :
    Registry × Nat :=
  ({ tasks := reg.tasks ++
      [⟨reg.nextId, "running", trigger, total, 0, 0, 0, none, none, none, false⟩],
     nextId := reg.nextId + 1 }, reg.nextId)

/-- Function `get_current_scrape_task`: `SELECT * FROM scrape_tasks WHERE status =
'running' ORDER BY started_at DESC LIMIT 1`. -/
def get_current_scrape_task (reg : Registry) : Option TaskRow :=
  (reg.tasks.filter fun t => t.status == "running").getLast?

/-- Function `get_scrape_task_by_id`. -/
def get_scrape_task_by_id (reg : Registry) (tid : Nat) : Option TaskRow :=
  reg.tasks.find? fun t => t.id == tid

/-- The keyword arguments of `update_scrape_task`; `none` is Python `None`,
which the function silently skips (`if x is not None`). -/
structure UpdateParams where
  completed_clubs : Option Int := none
  total_clubs : Option Int := none
  total_players : Option Int := none
  current_club : Option String := none
  current_province : Option String := none
  status : Option String := none
  errors_count : Option Int := none
  errors_detail : Option String := none
deriving DecidableEq

/-- The terminal statuses of `update_scrape_task`'s `finished_at` rule. -/
def isTerminalStatus (s : String) : Bool :=
  s == "success" || s == "failed" || s == "cancelled"

/-- The `SET` clause built by `update_scrape_task` applied to one row: every
parameter that is not `None` overwrites the column; a terminal `status` also
sets `finished_at`; `None` parameters are skipped, so no column can be
cleared back to `NULL`. -/
def updateTaskRow (t : TaskRow) (p : UpdateParams) : TaskRow :=
  { t with
    completed_clubs := p.completed_clubs.getD t.completed_clubs
    total_clubs := p.total_clubs.getD t.total_clubs
    total_players := p.total_players.getD t.total_players
    current_club := match p.current_club with
      | some v => some v
      | none => t.current_club
    current_province := match p.current_province with
      | some v => some v
      | none => t.current_province
    status := p.status.getD t.status
    finished := match p.status with
      | some s => if isTerminalStatus s then true else t.finished
      | none => t.finished
    errors_count := p.errors_count.getD t.errors_count
    errors_detail := match p.errors_detail with
      | some v => some v
      | none => t.errors_detail }

/-- Function `update_scrape_task`: `UPDATE scrape_tasks SET ... WHERE id = ?`; with all
parameters `None` it returns without touching the database. -/
def update_scrape_task (reg : Registry) (tid : Nat) (p : UpdateParams) :
    Registry :=
  { reg with tasks := reg.tasks.map fun t => if t.id = tid then updateTaskRow t p else t }

/-- Outcome of `POST /api/scrape/all`. -/
inductive StartResult where
  | conflict
  | started (task_id : Nat)
deriving DecidableEq

/-- Endpoint `start_full_scrape_endpoint`: raise 409 if `get_current_scrape_task`
finds a running task, else `create_scrape_task` (no awaits between the check
and the insert, so the pair is atomic under the single asyncio loop). -/
def start_full_scrape_endpoint (reg : Registry) (trigger : String)
    (totalClubs : Int) : Registry × StartResult :=
  match get_current_scrape_task reg with
  | some _ => (reg, .conflict)
  | none =>
      let (reg', tid) := create_scrape_task reg trigger totalClubs
      (reg', .started tid)

theorem get_current_after_create (reg : Registry) (trigger : String)
    (total : Int) :
    get_current_scrape_task (create_scrape_task reg trigger total).1
      = some ⟨reg.nextId, "running", trigger, total, 0, 0, 0, none, none, none, false⟩ := by
  simp [get_current_scrape_task, create_scrape_task, List.filter_append]

/-- C5: at most one non-terminal scrape task: if a running task exists the
endpoint answers 409 and allocates nothing; otherwise it allocates exactly one
new task in status `running` with zeroed progress counters (`completed_clubs`,
`total_players`, `errors_count`); hence a second call issued while the first
task is still running conflicts and leaves exactly the one new task. -/
theorem single_flight_per_family (reg : Registry) (trigger trigger2 : String)
    (totalClubs totalClubs2 : Int)
    (hfree : get_current_scrape_task reg = none) :
    (start_full_scrape_endpoint reg trigger totalClubs).2 = .started reg.nextId ∧
    (start_full_scrape_endpoint reg trigger totalClubs).1.tasks
      = reg.tasks ++
        [⟨reg.nextId, "running", trigger, totalClubs, 0, 0, 0, none, none, none, false⟩] ∧
    (start_full_scrape_endpoint
        (start_full_scrape_endpoint reg trigger totalClubs).1 trigger2 totalClubs2).2
      = .conflict ∧
    (start_full_scrape_endpoint
        (start_full_scrape_endpoint reg trigger totalClubs).1 trigger2 totalClubs2).1.tasks.length
      = reg.tasks.length + 1 := by
  have h1 : start_full_scrape_endpoint reg trigger totalClubs
      = ((create_scrape_task reg trigger totalClubs).1, .started reg.nextId) := by
    simp [start_full_scrape_endpoint, hfree, create_scrape_task]
  have h2 : get_current_scrape_task (create_scrape_task reg trigger totalClubs).1
      = some ⟨reg.nextId, "running", trigger, totalClubs, 0, 0, 0, none, none, none, false⟩ :=
    get_current_after_create reg trigger totalClubs
  refine ⟨by rw [h1], ?_, ?_, ?_⟩
  · rw [h1]; simp [create_scrape_task]
  · rw [h1]; simp only [start_full_scrape_endpoint, h2]
  · rw [h1]; simp only [start_full_scrape_endpoint, h2]
    simp [create_scrape_task]

/-- Witness for C5 at a concrete state: an empty registry accepts the first
start call and 409s the second, leaving exactly one running task. -/
theorem single_flight_per_family_witness :
    (start_full_scrape_endpoint ⟨[], 1⟩ "manual" 10).2 = .started 1 ∧
    (start_full_scrape_endpoint ⟨[], 1⟩ "manual" 10).1.tasks
      = [⟨1, "running", "manual", 10, 0, 0, 0, none, none, none, false⟩] ∧
    (start_full_scrape_endpoint
        (start_full_scrape_endpoint ⟨[], 1⟩ "manual" 10).1 "cron" 10).2 = .conflict ∧
    (start_full_scrape_endpoint
        (start_full_scrape_endpoint ⟨[], 1⟩ "manual" 10).1 "cron" 10).1.tasks.length
      = ([] : List TaskRow).length + 1 :=
  single_flight_per_family ⟨[], 1⟩ "manual" "cron" 10 10 (by decide)

/-- Fold a sequence of `update_scrape_task` SET clauses over one row. -/
def applyRowUpdates (t : TaskRow) (ps : List UpdateParams) : TaskRow :=
  ps.foldl updateTaskRow t

/-- The successive row states produced by a sequence of updates (initial
state included). -/
def updateStates (t : TaskRow) : List UpdateParams → List TaskRow
  | [] => [t]
  | p :: ps => t :: updateStates (updateTaskRow t p) ps

theorem updateTaskRow_completed (t : TaskRow) (p : UpdateParams) :
    (updateTaskRow t p).completed_clubs
      = p.completed_clubs.getD t.completed_clubs := rfl

theorem updateTaskRow_total (t : TaskRow) (p : UpdateParams) :
    (updateTaskRow t p).total_clubs = p.total_clubs.getD t.total_clubs := rfl

theorem updateStates_head (t : TaskRow) (ps : List UpdateParams) :
    ∃ l, updateStates t ps = t :: l := by
  cases ps <;> exact ⟨_, rfl⟩

/-- A sample task row: id 1, `running`, `total_clubs = 10`, counters zero. -/
def sampleTask : TaskRow :=
  ⟨1, "running", "manual", 10, 0, 0, 0, none, none, none, false⟩

/-- Registry holding exactly `sampleTask`. -/
def sampleRegistry : Registry := (create_scrape_task ⟨[], 1⟩ "manual" 10).1

/-- C8 counterexample: `update_scrape_task` is last-write-wins and enforces
nothing. On a task with `total_clubs = 10`, updating `completed_clubs` to 5
and then to 3 makes the stored counter decrease (5 → 3), and a single update
to 11 makes it exceed `total_clubs`; so over arbitrary update sequences the
counter is neither non-decreasing nor bounded by `total_units`. -/
theorem completed_units_not_monotonic :
    ((update_scrape_task sampleRegistry 1 { completed_clubs := some 5 }).tasks.map
        fun t => t.completed_clubs) = [5] ∧
    ((update_scrape_task (update_scrape_task sampleRegistry 1
          { completed_clubs := some 5 }) 1 { completed_clubs := some 3 }).tasks.map
        fun t => t.completed_clubs) = [3] ∧
    (3 : Int) < 5 ∧
    ((update_scrape_task sampleRegistry 1 { completed_clubs := some 11 }).tasks.map
        fun t => (t.completed_clubs, t.total_clubs)) = [(11, 10)] ∧
    (10 : Int) < 11 := by
  decide

/-- C8 amended: the update operation itself is last-write-wins, so the
invariant holds only for well-formed update sequences — as issued by
`run_full_scrape`, whose passed `completed_clubs` values are non-decreasing,
bounded by the fixed total, and which never rewrites `total_clubs`. For every
such sequence the stored counter is monotonically non-decreasing across all
intermediate states and never exceeds `total_clubs`. -/
theorem completed_units_monotone_of_wellformed (t : TaskRow)
    (ps : List UpdateParams)
    (htot : ∀ p ∈ ps, p.total_clubs = none)
    (hchain : List.Chain' (· ≤ ·)
      (t.completed_clubs :: ps.filterMap fun p => p.completed_clubs))
    (hbound : ∀ v ∈ ps.filterMap (fun p => p.completed_clubs), v ≤ t.total_clubs)
    (h0 : t.completed_clubs ≤ t.total_clubs) :
    List.Chain' (· ≤ ·) ((updateStates t ps).map fun s => s.completed_clubs) ∧
    ((updateStates t ps).all fun s => decide (s.completed_clubs ≤ t.total_clubs))
      = true := by
  induction ps generalizing t with
  | nil =>
      refine ⟨by simp [updateStates], ?_⟩
      simp [updateStates, h0]
  | cons p ps ih =>
      have htot1 : p.total_clubs = none := htot p (List.mem_cons_self p ps)
      have htot' : ∀ q ∈ ps, q.total_clubs = none :=
        fun q hq => htot q (List.mem_cons_of_mem p hq)
      have htotal_eq : (updateTaskRow t p).total_clubs = t.total_clubs := by
        rw [updateTaskRow_total, htot1]; rfl
      rcases updateStates_head (updateTaskRow t p) ps with ⟨l, hl⟩
      cases hc : p.completed_clubs with
      | none =>
          have hcomp : (updateTaskRow t p).completed_clubs = t.completed_clubs := by
            rw [updateTaskRow_completed, hc]; rfl
          have hfm : (List.filterMap (fun q => q.completed_clubs) (p :: ps))
              = ps.filterMap fun q => q.completed_clubs := by
            simp [List.filterMap_cons, hc]
          have ih' := ih (updateTaskRow t p) htot'
            (by rw [hcomp]; rw [hfm] at hchain; exact hchain)
            (by rw [htotal_eq]; rw [hfm] at hbound; exact hbound)
            (by rw [hcomp, htotal_eq]; exact h0)
          rw [htotal_eq] at ih'
          constructor
          · rw [updateStates, hl, List.map_cons, List.map_cons]
            rw [hl, List.map_cons] at ih'
            exact List.chain'_cons.2 ⟨le_of_eq hcomp.symm, ih'.1⟩
          · rw [updateStates, List.all_cons]
            exact by simp [h0, ih'.2]
      | some v =>
          have hcomp : (updateTaskRow t p).completed_clubs = v := by
            rw [updateTaskRow_completed, hc]; rfl
          have hfm : (List.filterMap (fun q => q.completed_clubs) (p :: ps))
              = v :: ps.filterMap fun q => q.completed_clubs := by
            simp [List.filterMap_cons, hc]
          rw [hfm] at hchain hbound
          have hlink : t.completed_clubs ≤ v := (List.chain'_cons.1 hchain).1
          have hvbound : v ≤ t.total_clubs := hbound v (List.mem_cons_self _ _)
          have ih' := ih (updateTaskRow t p) htot'
            (by rw [hcomp]; exact (List.chain'_cons.1 hchain).2)
            (by rw [htotal_eq]; exact fun w hw => hbound w (List.mem_cons_of_mem _ hw))
            (by rw [hcomp, htotal_eq]; exact hvbound)
          rw [htotal_eq] at ih'
          constructor
          · rw [updateStates, hl, List.map_cons, List.map_cons]
            rw [hl, List.map_cons] at ih'
            exact List.chain'_cons.2 ⟨by rw [hcomp]; exact hlink, ih'.1⟩
          · rw [updateStates, List.all_cons]
            exact by simp [h0, ih'.2]

/-- The update sequence issued for a 2-club run: `completed` 1, then 2 with
the terminal status. -/
def wellformedUpdates : List UpdateParams :=
  [{ completed_clubs := some 1 }, { completed_clubs := some 2, status := some "success" }]

/-- Witness for the amended C8 theorem: the sequence issued for a 2-club run
(`completed` 0, 1, then 2 with the terminal status) keeps the counter
non-decreasing and within `total_clubs = 10`. -/
theorem completed_units_monotone_of_wellformed_witness :
    List.Chain' (· ≤ ·) (sampleTask.completed_clubs ::
      wellformedUpdates.filterMap fun p => p.completed_clubs) ∧
    List.Chain' (· ≤ ·) ((updateStates sampleTask wellformedUpdates).map
      fun s => s.completed_clubs) ∧
    ((updateStates sampleTask wellformedUpdates).all
      fun s => decide (s.completed_clubs ≤ sampleTask.total_clubs)) = true :=
  ⟨by simp [wellformedUpdates, sampleTask, List.filterMap_cons, List.chain'_cons],
   completed_units_monotone_of_wellformed sampleTask wellformedUpdates
     (by decide)
     (by simp [wellformedUpdates, sampleTask, List.filterMap_cons, List.chain'_cons])
     (by intro v hv
         simp only [wellformedUpdates, List.filterMap_cons, List.filterMap_nil,
           List.mem_cons, List.not_mem_nil, or_false] at hv
         rcases hv with h | h <;> rw [h] <;> decide)
     (by decide)⟩

/-- Function `run_full_scrape`'s task-registry effects on the success path with no
members found: set `total_clubs`, one progress update per club setting
`current_club`/`current_province`, then a final update passing the terminal
status — the source also passes `current_club=None, current_province=None`
there, which `update_scrape_task` silently skips. -/
def run_full_scrape (reg : Registry) (tid : Nat) (clubs : List (String × String)) :
    Registry :=
  let reg1 := update_scrape_task reg tid { total_clubs := some (clubs.length : Int) }
  let step := fun (acc : Registry × Int) (c : String × String) =>
    (update_scrape_task acc.1 tid
      { completed_clubs := some acc.2, total_players := some 0,
        current_club := some c.1, current_province := some c.2 }, acc.2 + 1)
  let res := clubs.foldl step (reg1, 0)
  update_scrape_task res.1 tid
    { completed_clubs := some res.2, total_players := some 0,
      status := some "success", errors_count := some 0 }

/-- C10: the claimed invariant fails and the code contradicts its own intent.
`update_scrape_task` skips `None` parameters entirely (an all-`None` call
writes nothing), so the terminal update in `run_full_scrape` — which passes
`current_club=None, current_province=None` precisely to clear them — cannot
clear `current_club`. After a successful one-club run the task is terminal
(`status='success'`, `finished_at` set, `completed_clubs = total_clubs = 1`)
yet `current_club` still points at the already-completed club "A001". -/
theorem current_club_stale_after_terminal :
    update_scrape_task sampleRegistry 1 {} = sampleRegistry ∧
    ((run_full_scrape sampleRegistry 1 [("A001", "Liege")]).tasks.map fun t =>
        (t.status, t.current_club, t.completed_clubs, t.total_clubs, t.finished))
      = [("success", some "A001", 1, 1, true)] := by
  decide

/-! ## Crawl coordinator (`interclubs_scraper.py`)

`scrape_all_interclubs_rankings` iterates the division catalog × week list,
skips up to `resume_from`, polls `is_cancelled` before every work item, and
wraps navigate+parse+persist in an inline retry loop (`while retries <
MAX_RETRIES and not success`). The embedding makes the environment explicit:
`outcome (d, w) a` says what the `a`-th attempt at coordinate `(d, w)` does
(navigation/parse raise, or succeed with `records` rows whose batched upsert
commits iff `persistOk`), and the run produces the `Stats` dict plus a trace
of navigation, persistence and `time.sleep` events. -/

/-- Constant `MAX_RETRIES = 3` in `interclubs_scraper.py`. -/
def MAX_RETRIES : Nat := 3

/-- Constant `BASE_DELAY = 2.0` (the waits are exact powers of two, so `ℚ` models the
float arithmetic exactly). -/
def BASE_DELAY : ℚ := 2

/-- Constant `PAGE_DELAY = 0.5`, the default steady-state per-page delay. -/
def PAGE_DELAY : ℚ := 1/2

/-- What one attempt at a work item does: `exn` = navigation or parsing
raised; `ok n persistOk` = the page was parsed into `n` records and, when
`n > 0`, the batched upsert commits iff `persistOk` (a failed upsert raises
inside the same `try`). -/
inductive AttemptResult where
  | ok (records : Nat) (persistOk : Bool)
  | exn
deriving DecidableEq

/-- Returns `some n` iff the whole `try` body (navigate, parse, persist) completes,
returning the number of records persisted; zero records skip the DB call. -/
def attemptRecords : AttemptResult → Option Nat
  | .ok n p => if n = 0 then some 0 else if p then some n else none
  | .exn => none

/-- Observable steps of a run: page navigations (with the 1-based attempt
number), committed batch upserts, `time.sleep` calls (the backoff sleep after
the `attempt`-th failed attempt lasts `backoffDelay attempt` seconds, the
steady sleep lasts the configured page delay) and error-list appends. -/
inductive Event where
  | nav (d w attempt : Nat)
  | persist (d w records : Nat)
  | waitBackoff (attempt : Nat)
  | waitSteady
  | errorItem (d w : Nat)
deriving DecidableEq

/-- The amount `wait = BASE_DELAY * (2 ** (retries - 1))`: the seconds slept by the
backoff after the `a`-th failed attempt. -/
def backoffDelay (a : Nat) : ℚ := BASE_DELAY * 2 ^ (a - 1)

/-- Result of a work item's retry loop. -/
inductive ItemOutcome where
  | success (records : Nat)
  | exhausted
deriving DecidableEq

/-- A work item's outcome together with its event trace. -/
structure ItemResult where
  outcome : ItemOutcome
  events : List Event
deriving DecidableEq

/-- The inline retry loop for one work item, entered with `fuel =
MAX_RETRIES - retries` and the 1-based attempt number `a`: on success the
records are persisted and `time.sleep(delay)` runs; on an exception
`retries += 1` and, while `retries < MAX_RETRIES`, the loop sleeps
`BASE_DELAY * 2 ** (retries - 1)` and re-attempts; otherwise it appends one
error entry and gives up. -/
def retryGo (op : Nat → AttemptResult) (d w : Nat) :
    Nat → Nat → ItemResult
  | 0, _ => ⟨.exhausted, []⟩
  | fuel+1, a =>
    match attemptRecords (op a) with
    | some n =>
        ⟨.success n,
          .nav d w a :: ((if n = 0 then [] else [.persist d w n]) ++ [.waitSteady])⟩
    | none =>
        if fuel = 0 then ⟨.exhausted, [.nav d w a, .errorItem d w]⟩
        else
          let r := retryGo op d w fuel (a+1)
          ⟨r.outcome, .nav d w a :: .waitBackoff a :: r.events⟩

/-- One work item processed from a fresh retry state. -/
def processItem (op : Nat → AttemptResult) (d w : Nat) : ItemResult :=
  retryGo op d w MAX_RETRIES 1

/-- The scraper's `stats` dict (the fields the claims are about; errors are
tracked by the coordinate of the failing entry). -/
structure Stats where
  total_rankings : Nat
  errors : List (Nat × Nat)
  last_success : Option (Nat × Nat)
deriving DecidableEq

/-- The `stats` mutation at the end of a work item: a success adds the record
count and advances `last_success`; exhaustion appends one error entry. -/
def applyItem (s : Stats) (d w : Nat) (r : ItemResult) : Stats :=
  match r.outcome with
  | .success n =>
      { s with total_rankings := s.total_rankings + n, last_success := some (d, w) }
  | .exhausted => { s with errors := s.errors ++ [(d, w)] }

/-- The division×week double loop: check `is_cancelled()` (indexed here by
the running iteration counter) and return the partial stats if set; while
resuming, skip silently until the coordinate equals `resume_from`; process
every later item through the retry loop. -/
def runItems (outcome : Nat × Nat → Nat → AttemptResult) (cancelled : Nat → Bool) :
    List (Nat × Nat) → Nat → Option (Nat × Nat) → Stats → Stats × List Event
  | [], _, _, s => (s, [])
  | (d, w) :: rest, iter, skip?, s =>
    if cancelled iter then (s, [])
    else
      match skip? with
      | some (d0, w0) =>
          if d = d0 ∧ w = w0 then
            let r := processItem (fun a => outcome (d, w) a) d w
            let rs := runItems outcome cancelled rest (iter+1) none (applyItem s d w r)
            (rs.1, r.events ++ rs.2)
          else runItems outcome cancelled rest (iter+1) (some (d0, w0)) s
      | none =>
          let r := processItem (fun a => outcome (d, w) a) d w
          let rs := runItems outcome cancelled rest (iter+1) none (applyItem s d w r)
          (rs.1, r.events ++ rs.2)

/-- The enumerated crawl space: the (possibly filtered) division catalog ×
the week list, in iteration order. -/
def spaceOf (divisions weeks : List Nat) : List (Nat × Nat) :=
  divisions.flatMap fun d => weeks.map fun w => (d, w)

/-- The `stats` dict as initialised at the top of the run. -/
def initialStats : Stats := ⟨0, [], none⟩

/-- Function `scrape_all_interclubs_rankings`, from the point where the division
catalog has been loaded: run the double loop over the space with the given
resume coordinate and cancellation flag. -/
def scrape_all_interclubs_rankings (outcome : Nat × Nat → Nat → AttemptResult)
    (cancelled : Nat → Bool) (divisions weeks : List Nat)
    (resume_from : Option (Nat × Nat)) : Stats × List Event :=
  runItems outcome cancelled (spaceOf divisions weeks) 0 resume_from initialStats

/-- Function `run_interclubs_scrape` (the job driver in `routers/interclubs.py`): when
the scraper returns normally — even with per-item errors — the task status is
set to the terminal `'success'`. -/
def run_interclubs_scrape (outcome : Nat × Nat → Nat → AttemptResult)
    (cancelled : Nat → Bool) (divisions weeks : List Nat)
    (resume_from : Option (Nat × Nat)) : Stats × String :=
  ((scrape_all_interclubs_rankings outcome cancelled divisions weeks resume_from).1,
   "success")

/-- Coordinates navigated to (first attempts only: one entry per work item
that was fetched at all). -/
def navCoords (evs : List Event) : List (Nat × Nat) :=
  evs.filterMap fun e => match e with
    | .nav d w a => if a = 1 then some (d, w) else none
    | _ => none

/-- Coordinates whose batched upsert committed, with multiplicity. -/
def persistCoords (evs : List Event) : List (Nat × Nat) :=
  evs.filterMap fun e => match e with
    | .persist d w _ => some (d, w)
    | _ => none

/-- The seconds slept by the backoff sleeps of a trace, in order. -/
def backoffWaits (evs : List Event) : List ℚ :=
  evs.filterMap fun e => match e with
    | .waitBackoff a => some (backoffDelay a)
    | _ => none

/-- The steady-state page-delay sleeps of a trace, in order, each lasting
the configured `delay` seconds. -/
def steadyWaits (delay : ℚ) (evs : List Event) : List ℚ :=
  evs.filterMap fun e => match e with
    | .waitSteady => some delay
    | _ => none

/-- Strict lexicographic order on (division_index, week). -/
def lexLt (a b : Nat × Nat) : Prop :=
  a.1 < b.1 ∨ (a.1 = b.1 ∧ a.2 < b.2)

instance (a b : Nat × Nat) : Decidable (lexLt a b) := by
  unfold lexLt; infer_instance

/-- Number of consecutive failed attempts starting at attempt `a`, looking
at most `fuel` attempts ahead. -/
def failStreakFrom (op : Nat → AttemptResult) : Nat → Nat → Nat
  | _, 0 => 0
  | a, fuel+1 =>
      if (attemptRecords (op a)).isSome then 0
      else failStreakFrom op (a+1) fuel + 1

/-- Number of leading failed attempts (among the at most `MAX_RETRIES` the
loop makes) before the first attempt whose try-body completes. -/
def failStreak (op : Nat → AttemptResult) : Nat :=
  failStreakFrom op 1 MAX_RETRIES

/-- Whether some attempt within the retry budget completes its try-body
(navigate + parse + commit of all its records). -/
def everCommits (op : Nat → AttemptResult) : Bool :=
  (List.range MAX_RETRIES).any fun i => (attemptRecords (op (i+1))).isSome

/-- The 1-based attempt numbers navigated, in order. -/
def navAttempts (evs : List Event) : List Nat :=
  evs.filterMap fun e => match e with | .nav _ _ a => some a | _ => none

/-- How many consecutive work items the loop performs before the
cancellation flag is first seen `true`, starting at iteration `iter` with
`n` items left. -/
def freeSteps (c : Nat → Bool) : Nat → Nat → Nat
  | _, 0 => 0
  | iter, n+1 => if c iter then 0 else freeSteps c (iter+1) n + 1

theorem retryGo_zero (op : Nat → AttemptResult) (d w a : Nat) :
    retryGo op d w 0 a = ⟨.exhausted, []⟩ := rfl

theorem retryGo_succ_some (op : Nat → AttemptResult) (d w f a n : Nat)
    (h : attemptRecords (op a) = some n) :
    retryGo op d w (f+1) a
      = ⟨.success n,
         .nav d w a :: ((if n = 0 then [] else [.persist d w n]) ++ [.waitSteady])⟩ := by
  rw [retryGo, h]

theorem retryGo_succ_none_zero (op : Nat → AttemptResult) (d w a : Nat)
    (h : attemptRecords (op a) = none) :
    retryGo op d w 1 a = ⟨.exhausted, [.nav d w a, .errorItem d w]⟩ := by
  rw [retryGo, h]; rfl

theorem retryGo_succ_none_succ (op : Nat → AttemptResult) (d w f a : Nat)
    (h : attemptRecords (op a) = none) :
    retryGo op d w (f+1+1) a
      = ⟨(retryGo op d w (f+1) (a+1)).outcome,
         .nav d w a :: .waitBackoff a :: (retryGo op d w (f+1) (a+1)).events⟩ := by
  rw [retryGo, h]; rfl

theorem failStreakFrom_some (op : Nat → AttemptResult) (a f : Nat) (n : Nat)
    (h : attemptRecords (op a) = some n) :
    failStreakFrom op a (f+1) = 0 := by
  rw [failStreakFrom, h]; rfl

theorem failStreakFrom_none (op : Nat → AttemptResult) (a f : Nat)
    (h : attemptRecords (op a) = none) :
    failStreakFrom op a (f+1) = failStreakFrom op (a+1) f + 1 := by
  rw [failStreakFrom, h]; rfl

theorem failStreakFrom_le (op : Nat → AttemptResult) (a fuel : Nat) :
    failStreakFrom op a fuel ≤ fuel := by
  induction fuel generalizing a with
  | zero => exact Nat.le_refl 0
  | succ f ih =>
      cases hrec : attemptRecords (op a) with
      | some n => rw [failStreakFrom_some op a f n hrec]; omega
      | none =>
          rw [failStreakFrom_none op a f hrec]
          exact Nat.succ_le_succ (ih (a+1))

theorem backoffWaits_retryGo (op : Nat → AttemptResult) (d w : Nat)
    (fuel a : Nat) :
    backoffWaits (retryGo op d w fuel a).events
      = (List.range (min (failStreakFrom op a fuel) (fuel - 1))).map
          fun i => backoffDelay (a + i) := by
  induction fuel generalizing a with
  | zero => simp [retryGo_zero, backoffWaits, failStreakFrom]
  | succ f ih =>
      cases hrec : attemptRecords (op a) with
      | some n =>
          rw [retryGo_succ_some op d w f a n hrec, failStreakFrom_some op a f n hrec]
          by_cases hn : n = 0 <;> simp [backoffWaits, hn]
      | none =>
          rw [failStreakFrom_none op a f hrec]
          cases f with
          | zero =>
              rw [retryGo_succ_none_zero op d w a hrec]
              simp [backoffWaits, failStreakFrom]
          | succ f' =>
              rw [retryGo_succ_none_succ op d w f' a hrec]
              simp only [backoffWaits, List.filterMap_cons]
              have hmin : min (failStreakFrom op (a+1) (f'+1) + 1) (f' + 1 + 1 - 1)
                  = min (failStreakFrom op (a+1) (f'+1)) (f' + 1 - 1) + 1 := by
                omega
              rw [hmin, List.range_succ_eq_map, List.map_cons, List.map_map]
              have ih' := ih (a+1)
              simp only [backoffWaits] at ih'
              have hfun : ((fun i => backoffDelay (a + i)) ∘ Nat.succ)
                  = fun i => backoffDelay (a + 1 + i) := by
                funext i
                show backoffDelay (a + (i + 1)) = backoffDelay (a + 1 + i)
                congr 1
                omega
              rw [hfun, ← ih']
              rfl

theorem navAttempts_retryGo (op : Nat → AttemptResult) (d w : Nat)
    (fuel a : Nat) :
    navAttempts (retryGo op d w fuel a).events
      = List.range' a (min (failStreakFrom op a fuel + 1) fuel) := by
  induction fuel generalizing a with
  | zero => simp [retryGo_zero, navAttempts, failStreakFrom]
  | succ f ih =>
      cases hrec : attemptRecords (op a) with
      | some n =>
          rw [retryGo_succ_some op d w f a n hrec, failStreakFrom_some op a f n hrec]
          have hm : min (0 + 1) (f + 1) = 1 := by omega
          rw [hm]
          by_cases hn : n = 0 <;> simp [navAttempts, hn, List.range']
      | none =>
          rw [failStreakFrom_none op a f hrec]
          cases f with
          | zero =>
              rw [retryGo_succ_none_zero op d w a hrec]
              simp [navAttempts, failStreakFrom, List.range']
          | succ f' =>
              rw [retryGo_succ_none_succ op d w f' a hrec]
              simp only [navAttempts, List.filterMap_cons]
              have hmin : min (failStreakFrom op (a+1) (f'+1) + 1 + 1) (f' + 1 + 1)
                  = min (failStreakFrom op (a+1) (f'+1) + 1) (f' + 1) + 1 := by
                omega
              rw [hmin, List.range'_succ]
              have ih' := ih (a+1)
              simp only [navAttempts] at ih'
              rw [← ih']

theorem retryGo_exhausted_iff (op : Nat → AttemptResult) (d w : Nat)
    (fuel a : Nat) :
    (retryGo op d w fuel a).outcome = .exhausted
      ↔ failStreakFrom op a fuel = fuel := by
  induction fuel generalizing a with
  | zero => simp [retryGo_zero, failStreakFrom]
  | succ f ih =>
      cases hrec : attemptRecords (op a) with
      | some n =>
          rw [retryGo_succ_some op d w f a n hrec, failStreakFrom_some op a f n hrec]
          simp
      | none =>
          rw [failStreakFrom_none op a f hrec]
          cases f with
          | zero =>
              rw [retryGo_succ_none_zero op d w a hrec]
              simp [failStreakFrom]
          | succ f' =>
              rw [retryGo_succ_none_succ op d w f' a hrec]
              rw [ih (a+1)]
              have := failStreakFrom_le op (a+1) (f'+1)
              constructor
              · intro h; omega
              · intro h; omega

/-- C3: the retry wrapper's observable behaviour, for any per-attempt
behaviour of the navigate+parse+persist operation: the backoff sleeps are
exactly `BASE_DELAY * 2 ^ (i - 1)` seconds after the `i`-th consecutive
failure while retries remain (pure exponential, no jitter, `BASE_DELAY =
2.0`); the attempts made are numbers `1, 2, …` up to the first success,
capped at `MAX_RETRIES = 3`; and the work item is declared exhausted exactly
when all `MAX_RETRIES` attempts fail. -/
theorem retry_exponential_backoff (op : Nat → AttemptResult) (d w : Nat) :
    backoffWaits (processItem op d w).events
      = (List.range (min (failStreak op) (MAX_RETRIES - 1))).map
          (fun i => BASE_DELAY * 2 ^ i)
    ∧ navAttempts (processItem op d w).events
      = List.range' 1 (min (failStreak op + 1) MAX_RETRIES)
    ∧ ((processItem op d w).outcome = .exhausted ↔ failStreak op = MAX_RETRIES) := by
  refine ⟨?_, ?_, ?_⟩
  · rw [processItem, backoffWaits_retryGo, failStreak]
    refine List.map_congr_left fun i _ => ?_
    simp [backoffDelay, Nat.add_sub_cancel_left]
  · rw [processItem, navAttempts_retryGo, failStreak]
  · rw [processItem, retryGo_exhausted_iff, failStreak]

theorem runItems_nil (outcome : Nat × Nat → Nat → AttemptResult)
    (cancelled : Nat → Bool) (iter : Nat) (skip? : Option (Nat × Nat)) (s : Stats) :
    runItems outcome cancelled [] iter skip? s = (s, []) := rfl

theorem runItems_cons_cancelled (outcome : Nat × Nat → Nat → AttemptResult)
    (cancelled : Nat → Bool) (x : Nat × Nat) (rest : List (Nat × Nat))
    (iter : Nat) (skip? : Option (Nat × Nat)) (s : Stats)
    (hc : cancelled iter = true) :
    runItems outcome cancelled (x :: rest) iter skip? s = (s, []) := by
  cases x with
  | mk d w =>
      rw [runItems.eq_def]
      simp [hc]

theorem runItems_cons_process (outcome : Nat × Nat → Nat → AttemptResult)
    (cancelled : Nat → Bool) (d w : Nat) (rest : List (Nat × Nat))
    (iter : Nat) (s : Stats) (hc : cancelled iter = false) :
    runItems outcome cancelled ((d, w) :: rest) iter none s
      = ((runItems outcome cancelled rest (iter+1) none
            (applyItem s d w (processItem (fun a => outcome (d, w) a) d w))).1,
         (processItem (fun a => outcome (d, w) a) d w).events
           ++ (runItems outcome cancelled rest (iter+1) none
              (applyItem s d w (processItem (fun a => outcome (d, w) a) d w))).2) := by
  rw [runItems.eq_def]
  simp [hc]

theorem runItems_cons_skip_hit (outcome : Nat × Nat → Nat → AttemptResult)
    (cancelled : Nat → Bool) (d w : Nat) (rest : List (Nat × Nat))
    (iter : Nat) (s : Stats) (hc : cancelled iter = false) :
    runItems outcome cancelled ((d, w) :: rest) iter (some (d, w)) s
      = ((runItems outcome cancelled rest (iter+1) none
            (applyItem s d w (processItem (fun a => outcome (d, w) a) d w))).1,
         (processItem (fun a => outcome (d, w) a) d w).events
           ++ (runItems outcome cancelled rest (iter+1) none
              (applyItem s d w (processItem (fun a => outcome (d, w) a) d w))).2) := by
  rw [runItems.eq_def]
  simp [hc]

theorem runItems_cons_skip_miss (outcome : Nat × Nat → Nat → AttemptResult)
    (cancelled : Nat → Bool) (d w d0 w0 : Nat) (rest : List (Nat × Nat))
    (iter : Nat) (s : Stats) (hc : cancelled iter = false)
    (hne : ¬ (d = d0 ∧ w = w0)) :
    runItems outcome cancelled ((d, w) :: rest) iter (some (d0, w0)) s
      = runItems outcome cancelled rest (iter+1) (some (d0, w0)) s := by
  rw [runItems.eq_def]
  simp [hc, hne]

theorem navCoords_append (l1 l2 : List Event) :
    navCoords (l1 ++ l2) = navCoords l1 ++ navCoords l2 :=
  List.filterMap_append l1 l2 _

theorem persistCoords_append (l1 l2 : List Event) :
    persistCoords (l1 ++ l2) = persistCoords l1 ++ persistCoords l2 :=
  List.filterMap_append l1 l2 _

theorem navCoords_retryGo_of_lt (op : Nat → AttemptResult) (d w : Nat)
    (fuel a : Nat) (h : 1 < a) :
    navCoords (retryGo op d w fuel a).events = [] := by
  induction fuel generalizing a with
  | zero => simp [retryGo_zero, navCoords]
  | succ f ih =>
      have ha : ¬ a = 1 := by omega
      cases hrec : attemptRecords (op a) with
      | some n =>
          rw [retryGo_succ_some op d w f a n hrec]
          by_cases hn : n = 0 <;> simp [navCoords, hn, ha]
      | none =>
          cases f with
          | zero =>
              rw [retryGo_succ_none_zero op d w a hrec]
              simp [navCoords, ha]
          | succ f' =>
              rw [retryGo_succ_none_succ op d w f' a hrec]
              have hrest := ih (a+1) (by omega)
              simp only [navCoords, List.filterMap_cons] at hrest ⊢
              simp [ha, hrest]

theorem navCoords_processItem (op : Nat → AttemptResult) (d w : Nat) :
    navCoords (processItem op d w).events = [(d, w)] := by
  rw [processItem]
  show navCoords (retryGo op d w (2+1) 1).events = [(d, w)]
  cases hrec : attemptRecords (op 1) with
  | some n =>
      rw [retryGo_succ_some op d w 2 1 n hrec]
      by_cases hn : n = 0 <;> simp [navCoords, hn]
  | none =>
      rw [retryGo_succ_none_succ op d w 1 1 hrec]
      have hrest := navCoords_retryGo_of_lt op d w 2 2 (by omega)
      simp only [navCoords, List.filterMap_cons] at hrest ⊢
      simp [hrest]

theorem persistCoords_retryGo_sublist (op : Nat → AttemptResult) (d w : Nat)
    (fuel a : Nat) :
    List.Sublist (persistCoords (retryGo op d w fuel a).events) [(d, w)] := by
  induction fuel generalizing a with
  | zero => simp [retryGo_zero, persistCoords]
  | succ f ih =>
      cases hrec : attemptRecords (op a) with
      | some n =>
          rw [retryGo_succ_some op d w f a n hrec]
          by_cases hn : n = 0 <;> simp [persistCoords, hn]
      | none =>
          cases f with
          | zero =>
              rw [retryGo_succ_none_zero op d w a hrec]
              simp [persistCoords]
          | succ f' =>
              rw [retryGo_succ_none_succ op d w f' a hrec]
              have hrest := ih (a+1)
              simp only [persistCoords, List.filterMap_cons] at hrest ⊢
              simpa using hrest

theorem persistCoords_retryGo_exhausted (op : Nat → AttemptResult) (d w : Nat)
    (fuel a : Nat) (h : (retryGo op d w fuel a).outcome = .exhausted) :
    persistCoords (retryGo op d w fuel a).events = [] := by
  induction fuel generalizing a with
  | zero => simp [retryGo_zero, persistCoords]
  | succ f ih =>
      cases hrec : attemptRecords (op a) with
      | some n =>
          rw [retryGo_succ_some op d w f a n hrec] at h
          simp at h
      | none =>
          cases f with
          | zero =>
              rw [retryGo_succ_none_zero op d w a hrec]
              simp [persistCoords]
          | succ f' =>
              rw [retryGo_succ_none_succ op d w f' a hrec] at h ⊢
              have hrest := ih (a+1) h
              simp only [persistCoords, List.filterMap_cons] at hrest ⊢
              simpa using hrest

theorem runItems_all_fail (outcome : Nat × Nat → Nat → AttemptResult)
    (hfail : ∀ x a, attemptRecords (outcome x a) = none)
    (items : List (Nat × Nat)) (iter : Nat) (s : Stats) :
    (runItems outcome (fun _ => false) items iter none s).1
      = ⟨s.total_rankings, s.errors ++ items, s.last_success⟩
    ∧ navCoords (runItems outcome (fun _ => false) items iter none s).2 = items
    ∧ persistCoords (runItems outcome (fun _ => false) items iter none s).2 = [] := by
  induction items generalizing iter s with
  | nil => simp [runItems_nil, navCoords, persistCoords]
  | cons x rest ih =>
      cases x with
      | mk d w =>
          rw [runItems_cons_process outcome (fun _ => false) d w rest iter s rfl]
          have hexh : (processItem (fun a => outcome (d, w) a) d w).outcome
              = .exhausted := by
            rw [processItem, retryGo_exhausted_iff]
            have h3 : failStreakFrom (fun a => outcome (d, w) a) 1 3 = 3 := by
              rw [failStreakFrom_none _ _ _ (hfail (d, w) 1),
                failStreakFrom_none _ _ _ (hfail (d, w) 2),
                failStreakFrom_none _ _ _ (hfail (d, w) 3)]
              rfl
            exact h3
          have happly : applyItem s d w (processItem (fun a => outcome (d, w) a) d w)
              = ⟨s.total_rankings, s.errors ++ [(d, w)], s.last_success⟩ := by
            rw [applyItem, hexh]
          have ihr := ih (iter+1) (applyItem s d w (processItem (fun a => outcome (d, w) a) d w))
          refine ⟨?_, ?_, ?_⟩
          · rw [ihr.1, happly]
            simp
          · rw [navCoords_append, ihr.2.1, navCoords_processItem]
            rfl
          · rw [persistCoords_append, ihr.2.2]
            have hpc : persistCoords (processItem (fun a => outcome (d, w) a) d w).events
                = [] := by
              rw [processItem]
              exact persistCoords_retryGo_exhausted _ _ _ _ _
                (by rw [← processItem]; exact hexh)
            rw [hpc]
            rfl

/-- C4: retry-exhaustion isolation: when every attempt at every work item
fails, each work item appends exactly one error entry and the crawl continues
to the next item — the run navigates the whole space, persists nothing,
collects one error per item in order, and the driver still ends in the
terminal status `'success'` (not stuck `running`). -/
theorem retry_exhaustion_isolation (outcome : Nat × Nat → Nat → AttemptResult)
    (divisions weeks : List Nat)
    (hfail : ∀ x a, attemptRecords (outcome x a) = none) :
    (run_interclubs_scrape outcome (fun _ => false) divisions weeks none).1.errors
      = spaceOf divisions weeks
    ∧ (run_interclubs_scrape outcome (fun _ => false) divisions weeks none).1.total_rankings
      = 0
    ∧ navCoords (scrape_all_interclubs_rankings outcome (fun _ => false)
        divisions weeks none).2 = spaceOf divisions weeks
    ∧ persistCoords (scrape_all_interclubs_rankings outcome (fun _ => false)
        divisions weeks none).2 = []
    ∧ isTerminalStatus (run_interclubs_scrape outcome (fun _ => false)
        divisions weeks none).2 = true
    ∧ (run_interclubs_scrape outcome (fun _ => false) divisions weeks none).2
      = "success" := by
  have h := runItems_all_fail outcome hfail (spaceOf divisions weeks) 0 initialStats
  refine ⟨?_, ?_, h.2.1, h.2.2, rfl, rfl⟩
  · show (runItems outcome (fun _ => false) (spaceOf divisions weeks) 0 none
        initialStats).1.errors = spaceOf divisions weeks
    rw [h.1]
    rfl
  · show (runItems outcome (fun _ => false) (spaceOf divisions weeks) 0 none
        initialStats).1.total_rankings = 0
    rw [h.1]
    rfl

/-- The always-failing environment used as the C4 witness. -/
def outcomeAlwaysFail : Nat × Nat → Nat → AttemptResult := fun _ _ => .exn

/-- Witness for C4 on the 3-item space `[0] × [1, 2, 3]`: exactly 3 error
entries, 0 persisted records, terminal status. -/
theorem retry_exhaustion_isolation_witness :
    ((run_interclubs_scrape outcomeAlwaysFail (fun _ => false) [0] [1, 2, 3] none).1.errors
        = spaceOf [0] [1, 2, 3]
      ∧ (run_interclubs_scrape outcomeAlwaysFail (fun _ => false) [0] [1, 2, 3] none).1.total_rankings
        = 0
      ∧ navCoords (scrape_all_interclubs_rankings outcomeAlwaysFail (fun _ => false)
          [0] [1, 2, 3] none).2 = spaceOf [0] [1, 2, 3]
      ∧ persistCoords (scrape_all_interclubs_rankings outcomeAlwaysFail (fun _ => false)
          [0] [1, 2, 3] none).2 = []
      ∧ isTerminalStatus (run_interclubs_scrape outcomeAlwaysFail (fun _ => false)
          [0] [1, 2, 3] none).2 = true
      ∧ (run_interclubs_scrape outcomeAlwaysFail (fun _ => false) [0] [1, 2, 3] none).2
        = "success")
    ∧ (run_interclubs_scrape outcomeAlwaysFail (fun _ => false) [0] [1, 2, 3] none).1.errors.length
      = 3 :=
  ⟨retry_exhaustion_isolation outcomeAlwaysFail [0] [1, 2, 3] (fun _ _ => rfl),
   by decide⟩

theorem runItems_cons_process_snd (outcome : Nat × Nat → Nat → AttemptResult)
    (cancelled : Nat → Bool) (d w : Nat) (rest : List (Nat × Nat))
    (iter : Nat) (s : Stats) (hc : cancelled iter = false) :
    (runItems outcome cancelled ((d, w) :: rest) iter none s).2
      = (processItem (fun a => outcome (d, w) a) d w).events
        ++ (runItems outcome cancelled rest (iter+1) none
            (applyItem s d w (processItem (fun a => outcome (d, w) a) d w))).2 := by
  rw [runItems_cons_process outcome cancelled d w rest iter s hc]

theorem runItems_cons_process_fst (outcome : Nat × Nat → Nat → AttemptResult)
    (cancelled : Nat → Bool) (d w : Nat) (rest : List (Nat × Nat))
    (iter : Nat) (s : Stats) (hc : cancelled iter = false) :
    (runItems outcome cancelled ((d, w) :: rest) iter none s).1
      = (runItems outcome cancelled rest (iter+1) none
          (applyItem s d w (processItem (fun a => outcome (d, w) a) d w))).1 := by
  rw [runItems_cons_process outcome cancelled d w rest iter s hc]

theorem runItems_cons_skip_hit_snd (outcome : Nat × Nat → Nat → AttemptResult)
    (cancelled : Nat → Bool) (d w : Nat) (rest : List (Nat × Nat))
    (iter : Nat) (s : Stats) (hc : cancelled iter = false) :
    (runItems outcome cancelled ((d, w) :: rest) iter (some (d, w)) s).2
      = (processItem (fun a => outcome (d, w) a) d w).events
        ++ (runItems outcome cancelled rest (iter+1) none
            (applyItem s d w (processItem (fun a => outcome (d, w) a) d w))).2 := by
  rw [runItems_cons_skip_hit outcome cancelled d w rest iter s hc]

theorem runItems_cons_skip_hit_fst (outcome : Nat × Nat → Nat → AttemptResult)
    (cancelled : Nat → Bool) (d w : Nat) (rest : List (Nat × Nat))
    (iter : Nat) (s : Stats) (hc : cancelled iter = false) :
    (runItems outcome cancelled ((d, w) :: rest) iter (some (d, w)) s).1
      = (runItems outcome cancelled rest (iter+1) none
          (applyItem s d w (processItem (fun a => outcome (d, w) a) d w))).1 := by
  rw [runItems_cons_skip_hit outcome cancelled d w rest iter s hc]

theorem retryGo_success_commits (op : Nat → AttemptResult) (d w fuel a n : Nat)
    (h : (retryGo op d w fuel a).outcome = .success n) :
    ∃ i, i < fuel ∧ attemptRecords (op (a + i)) = some n := by
  induction fuel generalizing a with
  | zero => rw [retryGo_zero] at h; simp at h
  | succ f ih =>
      cases hrec : attemptRecords (op a) with
      | some m =>
          rw [retryGo_succ_some op d w f a m hrec] at h
          have hmn : m = n := by simpa using h
          exact ⟨0, by omega, by rw [Nat.add_zero, hrec, hmn]⟩
      | none =>
          cases f with
          | zero =>
              rw [retryGo_succ_none_zero op d w a hrec] at h
              simp at h
          | succ f' =>
              rw [retryGo_succ_none_succ op d w f' a hrec] at h
              have h' : (retryGo op d w (f'+1) (a+1)).outcome = .success n := h
              rcases ih (a+1) h' with ⟨i, hi, hcom⟩
              refine ⟨i+1, by omega, ?_⟩
              rw [show a + (i+1) = a + 1 + i by omega]
              exact hcom

theorem everCommits_of_commit (op : Nat → AttemptResult) (i n : Nat)
    (hi : i < MAX_RETRIES) (h : attemptRecords (op (1 + i)) = some n) :
    everCommits op = true := by
  rw [everCommits]
  refine List.any_eq_true.2 ⟨i, List.mem_range.2 hi, ?_⟩
  rw [show i + 1 = 1 + i by omega, h]
  rfl

theorem everCommits_of_success (op : Nat → AttemptResult) (d w n : Nat)
    (h : (processItem op d w).outcome = .success n) : everCommits op = true := by
  rw [processItem] at h
  rcases retryGo_success_commits op d w MAX_RETRIES 1 n h with ⟨i, hi, hcom⟩
  exact everCommits_of_commit op i n hi hcom

theorem last_success_applyItem (outcome : Nat × Nat → Nat → AttemptResult)
    (s : Stats) (d w : Nat) (x : Nat × Nat)
    (h : (applyItem s d w (processItem (fun a => outcome (d, w) a) d w)).last_success
      = some x) :
    s.last_success = some x ∨ everCommits (fun a => outcome x a) = true := by
  cases hout : (processItem (fun a => outcome (d, w) a) d w).outcome with
  | success n =>
      simp only [applyItem, hout] at h
      have hx : (d, w) = x := by simpa using h
      cases hx
      exact Or.inr (everCommits_of_success _ d w n hout)
  | exhausted =>
      simp only [applyItem, hout] at h
      exact Or.inl h

theorem runItems_last_success (outcome : Nat × Nat → Nat → AttemptResult)
    (cancelled : Nat → Bool) (items : List (Nat × Nat)) (iter : Nat)
    (skip? : Option (Nat × Nat)) (s : Stats) (x : Nat × Nat)
    (h : (runItems outcome cancelled items iter skip? s).1.last_success = some x) :
    s.last_success = some x ∨ everCommits (fun a => outcome x a) = true := by
  induction items generalizing iter skip? s with
  | nil => rw [runItems_nil] at h; exact Or.inl h
  | cons y rest ih =>
      cases y with
      | mk d w =>
          cases hc : cancelled iter with
          | true =>
              rw [runItems_cons_cancelled _ _ _ _ _ _ _ hc] at h
              exact Or.inl h
          | false =>
              cases skip? with
              | none =>
                  rw [runItems_cons_process_fst _ _ _ _ _ _ _ hc] at h
                  rcases ih (iter+1) none _ h with h1 | h1
                  · exact last_success_applyItem outcome s d w x h1
                  · exact Or.inr h1
              | some r =>
                  cases r with
                  | mk d0 w0 =>
                      by_cases heq : d = d0 ∧ w = w0
                      · rcases heq with ⟨h1, h2⟩
                        subst h1; subst h2
                        rw [runItems_cons_skip_hit_fst _ _ _ _ _ _ _ hc] at h
                        rcases ih (iter+1) none _ h with h1 | h1
                        · exact last_success_applyItem outcome s d w x h1
                        · exact Or.inr h1
                      · rw [runItems_cons_skip_miss _ _ _ _ _ _ _ _ _ hc heq] at h
                        exact ih (iter+1) (some (d0, w0)) s h

/-- C7: the resume checkpoint is advanced only for work items whose try-body
ran to completion: whenever the final `stats['last_success']` names a
coordinate `x`, some attempt at `x` within the retry budget completed
navigate + parse and committed all of its parsed records (an empty record
set commits vacuously); it is never set to a coordinate whose records failed
to persist. -/
theorem last_success_only_after_commit (outcome : Nat × Nat → Nat → AttemptResult)
    (cancelled : Nat → Bool) (divisions weeks : List Nat)
    (resume_from : Option (Nat × Nat)) (x : Nat × Nat)
    (h : (scrape_all_interclubs_rankings outcome cancelled divisions weeks
        resume_from).1.last_success = some x) :
    everCommits (fun a => outcome x a) = true := by
  rcases runItems_last_success outcome cancelled (spaceOf divisions weeks) 0
      resume_from initialStats x h with h1 | h1
  · simp [initialStats] at h1
  · exact h1

/-- Environment for the C7 witness: `(0, 1)` parses 2 records and commits;
everything else raises. -/
def outcomeOneGood : Nat × Nat → Nat → AttemptResult :=
  fun c _ => if c = (0, 1) then .ok 2 true else .exn

/-- Witness for C7: a run over `[0] × [1, 2]` ends with `last_success =
(0, 1)`, and indeed `(0, 1)` has a committing attempt. -/
theorem last_success_only_after_commit_witness :
    (scrape_all_interclubs_rankings outcomeOneGood (fun _ => false) [0] [1, 2]
        none).1.last_success = some (0, 1)
    ∧ everCommits (fun a => outcomeOneGood (0, 1) a) = true :=
  ⟨by decide,
   last_success_only_after_commit outcomeOneGood (fun _ => false) [0] [1, 2]
     none (0, 1) (by decide)⟩

theorem freeSteps_succ (c : Nat → Bool) (iter n : Nat) :
    freeSteps c iter (n+1)
      = if c iter then 0 else freeSteps c (iter+1) n + 1 := rfl

theorem navCoords_runItems_cancelled (outcome : Nat × Nat → Nat → AttemptResult)
    (cancelled : Nat → Bool) (items : List (Nat × Nat)) (iter : Nat) (s : Stats) :
    navCoords (runItems outcome cancelled items iter none s).2
      = items.take (freeSteps cancelled iter items.length) := by
  induction items generalizing iter s with
  | nil => rw [runItems_nil]; rfl
  | cons y rest ih =>
      cases y with
      | mk d w =>
          cases hc : cancelled iter with
          | true =>
              rw [runItems_cons_cancelled _ _ _ _ _ _ _ hc]
              simp [navCoords, freeSteps_succ, hc]
          | false =>
              rw [runItems_cons_process_snd _ _ _ _ _ _ _ hc]
              rw [navCoords_append, navCoords_processItem, ih (iter+1)]
              simp [freeSteps_succ, hc]

theorem persistCoords_runItems_sublist (outcome : Nat × Nat → Nat → AttemptResult)
    (cancelled : Nat → Bool) (items : List (Nat × Nat)) (iter : Nat)
    (skip? : Option (Nat × Nat)) (s : Stats) :
    List.Sublist (persistCoords (runItems outcome cancelled items iter skip? s).2)
      items := by
  induction items generalizing iter skip? s with
  | nil => rw [runItems_nil]; exact List.nil_sublist _
  | cons y rest ih =>
      cases y with
      | mk d w =>
          cases hc : cancelled iter with
          | true =>
              rw [runItems_cons_cancelled _ _ _ _ _ _ _ hc]
              exact List.nil_sublist _
          | false =>
              have hstep : ∀ s' : Stats,
                  List.Sublist (persistCoords
                    ((processItem (fun a => outcome (d, w) a) d w).events
                      ++ (runItems outcome cancelled rest (iter+1) none s').2))
                    ((d, w) :: rest) := by
                intro s'
                rw [persistCoords_append]
                have h1 := persistCoords_retryGo_sublist
                  (fun a => outcome (d, w) a) d w MAX_RETRIES 1
                have h1' : List.Sublist
                    (persistCoords (processItem (fun a => outcome (d, w) a) d w).events)
                    [(d, w)] := by
                  rw [processItem]; exact h1
                have h2 := ih (iter+1) none s'
                rcases List.sublist_singleton.1 h1' with he | he <;> rw [he]
                · exact List.Sublist.cons (d, w) h2
                · exact List.Sublist.cons₂ (d, w) h2
              cases skip? with
              | none =>
                  rw [runItems_cons_process_snd _ _ _ _ _ _ _ hc]
                  exact hstep _
              | some r =>
                  cases r with
                  | mk d0 w0 =>
                      by_cases heq : d = d0 ∧ w = w0
                      · rcases heq with ⟨h1, h2⟩
                        subst h1; subst h2
                        rw [runItems_cons_skip_hit_snd _ _ _ _ _ _ _ hc]
                        exact hstep _
                      · rw [runItems_cons_skip_miss _ _ _ _ _ _ _ _ _ hc heq]
                        exact List.Sublist.cons (d, w) (ih (iter+1) (some (d0, w0)) s)

/-- C6: cancellation is observed at work-item granularity: the items
navigated are exactly the prefix of the space up to the first iteration at
which `is_cancelled()` reports true (so once cancellation is observed no
further work item is navigated or fetched, while the in-flight item's retry
loop always runs to completion — the flag is only polled between items); and
over a duplicate-free space every work item's batch is committed at most
once. -/
theorem cancellation_work_item_granularity
    (outcome : Nat × Nat → Nat → AttemptResult) (cancelled : Nat → Bool)
    (divisions weeks : List Nat)
    (hnd : (spaceOf divisions weeks).Nodup) :
    navCoords (scrape_all_interclubs_rankings outcome cancelled divisions weeks
        none).2
      = (spaceOf divisions weeks).take
          (freeSteps cancelled 0 (spaceOf divisions weeks).length)
    ∧ (persistCoords (scrape_all_interclubs_rankings outcome cancelled divisions
        weeks none).2).Nodup :=
  ⟨navCoords_runItems_cancelled outcome cancelled (spaceOf divisions weeks) 0
      initialStats,
   List.Nodup.sublist
     (persistCoords_runItems_sublist outcome cancelled (spaceOf divisions weeks)
       0 none initialStats) hnd⟩

/-- Witness for C6: over `[0, 1] × [1, 2]` with cancellation first observed
at the third item, exactly the first two items are navigated and no batch
commits twice. -/
theorem cancellation_work_item_granularity_witness :
    ((spaceOf [0, 1] [1, 2]).Nodup ∧
      (navCoords (scrape_all_interclubs_rankings outcomeOneGood
          (fun i => decide (2 ≤ i)) [0, 1] [1, 2] none).2
        = (spaceOf [0, 1] [1, 2]).take
            (freeSteps (fun i => decide (2 ≤ i)) 0 (spaceOf [0, 1] [1, 2]).length)
      ∧ (persistCoords (scrape_all_interclubs_rankings outcomeOneGood
          (fun i => decide (2 ≤ i)) [0, 1] [1, 2] none).2).Nodup))
    ∧ navCoords (scrape_all_interclubs_rankings outcomeOneGood
        (fun i => decide (2 ≤ i)) [0, 1] [1, 2] none).2 = [(0, 1), (0, 2)] :=
  ⟨⟨by decide,
    cancellation_work_item_granularity outcomeOneGood (fun i => decide (2 ≤ i))
      [0, 1] [1, 2] (by decide)⟩,
   by decide⟩

theorem freeSteps_false (iter n : Nat) :
    freeSteps (fun _ => false) iter n = n := by
  induction n generalizing iter with
  | zero => rfl
  | succ m ih => rw [freeSteps_succ]; simp [ih]

theorem navCoords_runItems_nocancel (outcome : Nat × Nat → Nat → AttemptResult)
    (items : List (Nat × Nat)) (iter : Nat) (s : Stats) :
    navCoords (runItems outcome (fun _ => false) items iter none s).2 = items := by
  rw [navCoords_runItems_cancelled, freeSteps_false, List.take_length]

theorem navCoords_runItems_resume (outcome : Nat × Nat → Nat → AttemptResult)
    (r : Nat × Nat) (items : List (Nat × Nat)) (iter : Nat) (s : Stats) :
    navCoords (runItems outcome (fun _ => false) items iter (some r) s).2
      = items.dropWhile fun x => decide (x ≠ r) := by
  induction items generalizing iter s with
  | nil => rw [runItems_nil]; rfl
  | cons y rest ih =>
      cases y with
      | mk d w =>
          cases r with
          | mk d0 w0 =>
              by_cases heq : d = d0 ∧ w = w0
              · rcases heq with ⟨h1, h2⟩
                subst h1; subst h2
                rw [runItems_cons_skip_hit_snd _ _ _ _ _ _ _ rfl]
                rw [navCoords_append, navCoords_processItem,
                  navCoords_runItems_nocancel]
                have hpred : (decide (((d, w) : Nat × Nat) ≠ (d, w))) = false := by
                  simp
                rw [List.dropWhile_cons]
                simp [hpred]
              · have hne : ((d, w) : Nat × Nat) ≠ (d0, w0) := by
                  intro hcon
                  cases hcon
                  exact heq ⟨rfl, rfl⟩
                rw [runItems_cons_skip_miss _ _ _ _ _ _ _ _ _ rfl heq]
                rw [ih (iter+1) s]
                rw [List.dropWhile_cons]
                simp [hne]

theorem lexLt_irrefl (a : Nat × Nat) : ¬ lexLt a a := by
  simp [lexLt]

theorem lexLt_asymm (a b : Nat × Nat) (h : lexLt a b) : ¬ lexLt b a := by
  intro hcon
  rcases h with h | ⟨h1, h2⟩ <;> rcases hcon with hc | ⟨hc1, hc2⟩ <;> omega

theorem mem_spaceOf (divisions weeks : List Nat) (x : Nat × Nat)
    (h : x ∈ spaceOf divisions weeks) : x.1 ∈ divisions ∧ x.2 ∈ weeks := by
  rw [spaceOf] at h
  rcases List.mem_flatMap.1 h with ⟨d, hd, hx⟩
  rcases List.mem_map.1 hx with ⟨w, hw, hxw⟩
  cases hxw
  exact ⟨hd, hw⟩

theorem pairwise_lexLt_spaceOf (divisions weeks : List Nat)
    (hd : divisions.Pairwise (· < ·)) (hw : weeks.Pairwise (· < ·)) :
    (spaceOf divisions weeks).Pairwise lexLt := by
  induction divisions with
  | nil => simp [spaceOf]
  | cons d ds ih =>
      rcases List.pairwise_cons.1 hd with ⟨hdhead, hdtail⟩
      rw [spaceOf, List.flatMap_cons]
      refine List.pairwise_append.2 ⟨?_, ?_, ?_⟩
      · refine List.Pairwise.map _ ?_ hw
        intro a b hab
        exact Or.inr ⟨rfl, hab⟩
      · exact ih hdtail
      · intro x hx y hy
        rcases List.mem_map.1 hx with ⟨wx, hwx, hxe⟩
        cases hxe
        have hy1 := (mem_spaceOf ds weeks y hy).1
        exact Or.inl (hdhead y.1 hy1)

theorem dropWhile_ne_eq_filter_not_lexLt (l : List (Nat × Nat)) (r : Nat × Nat)
    (hp : l.Pairwise lexLt) (hr : r ∈ l) :
    (l.dropWhile fun x => decide (x ≠ r))
      = l.filter fun x => !decide (lexLt x r) := by
  induction l with
  | nil => simp at hr
  | cons x t ih =>
      rcases List.pairwise_cons.1 hp with ⟨hx, ht⟩
      by_cases hxr : x = r
      · subst hxr
        rw [List.dropWhile_cons, List.filter_cons]
        have h1 : (decide (x ≠ x)) = false := by simp
        have h2 : (!decide (lexLt x x)) = true := by
          simp [lexLt_irrefl x]
        rw [h1, h2]
        simp only [Bool.false_eq_true, if_false, if_true]
        have hall : ∀ a ∈ t, (!decide (lexLt a x)) = true := by
          intro a ha
          simp [lexLt_asymm x a (hx a ha)]
        rw [List.filter_eq_self.2 hall]
      · have hrt : r ∈ t := by
          rcases List.mem_cons.1 hr with h | h
          · exact absurd h.symm hxr
          · exact h
        have hxltr : lexLt x r := hx r hrt
        rw [List.dropWhile_cons, List.filter_cons]
        have h1 : (decide (x ≠ r)) = true := by simp [hxr]
        have h2 : (!decide (lexLt x r)) = false := by simp [hxltr]
        rw [h1, h2]
        simp only [if_true, Bool.false_eq_true, if_false]
        exact ih ht hrt

/-- C2: resuming from a member of the enumerated space: with the division
catalog and week list strictly increasing (their enumeration order), the
navigated work items are exactly those not lexicographically earlier than
`resume_from` — every earlier item is skipped without any navigation event,
and every item from `resume_from` (inclusive) onward is processed. -/
theorem resume_skips_lex_earlier (outcome : Nat × Nat → Nat → AttemptResult)
    (divisions weeks : List Nat) (r : Nat × Nat)
    (hd : divisions.Pairwise (· < ·)) (hw : weeks.Pairwise (· < ·))
    (hr : r ∈ spaceOf divisions weeks) :
    navCoords (scrape_all_interclubs_rankings outcome (fun _ => false)
        divisions weeks (some r)).2
      = (spaceOf divisions weeks).filter fun x => !decide (lexLt x r) := by
  rw [scrape_all_interclubs_rankings, navCoords_runItems_resume]
  exact dropWhile_ne_eq_filter_not_lexLt _ r
    (pairwise_lexLt_spaceOf divisions weeks hd hw) hr

/-- Witness for C2: resuming the space `[0, 1] × [1, 2]` from `(1, 1)`
navigates exactly `(1, 1)` and `(1, 2)`; the two lexicographically earlier
items are never navigated. -/
theorem resume_skips_lex_earlier_witness :
    (([0, 1] : List Nat).Pairwise (· < ·) ∧ ([1, 2] : List Nat).Pairwise (· < ·)
      ∧ ((1, 1) : Nat × Nat) ∈ spaceOf [0, 1] [1, 2])
    ∧ navCoords (scrape_all_interclubs_rankings outcomeOneGood (fun _ => false)
        [0, 1] [1, 2] (some (1, 1))).2
      = (spaceOf [0, 1] [1, 2]).filter (fun x => !decide (lexLt x (1, 1)))
    ∧ navCoords (scrape_all_interclubs_rankings outcomeOneGood (fun _ => false)
        [0, 1] [1, 2] (some (1, 1))).2 = [(1, 1), (1, 2)] :=
  ⟨⟨by decide, by decide, by decide⟩,
   resume_skips_lex_earlier outcomeOneGood [0, 1] [1, 2] (1, 1)
     (by decide) (by decide) (by decide),
   by decide⟩

/-- Environment for the C9 counterexample: every attempt at `(0, 1)` raises;
every other item parses one record and commits. -/
def outcomeFirstBad : Nat × Nat → Nat → AttemptResult :=
  fun c _ => if c = (0, 1) then .exn else .ok 1 true

/-- C9 counterexample: the post-error wait replaces the steady-state delay
instead of adding to it. Over `[0] × [1, 2]` with `(0, 1)` always failing,
the trace sleeps only the backoff after each of the first two failures, and
after the third (final) failure proceeds directly to navigating the next
work item with no wait at all: the whole failed item's segment (the first 6
events) contains no steady-state sleep, so the claimed "post-error delay in
addition to the steady-state delay" never happens. -/
theorem post_error_pacing_not_additive :
    (scrape_all_interclubs_rankings outcomeFirstBad (fun _ => false) [0] [1, 2]
        none).2
      = [.nav 0 1 1, .waitBackoff 1, .nav 0 1 2, .waitBackoff 2, .nav 0 1 3,
         .errorItem 0 1, .nav 0 2 1, .persist 0 2 1, .waitSteady]
    ∧ steadyWaits PAGE_DELAY ((scrape_all_interclubs_rankings outcomeFirstBad
        (fun _ => false) [0] [1, 2] none).2.take 6) = [] := by
  decide

theorem steadyWaits_retryGo (op : Nat → AttemptResult) (d w : Nat) (delay : ℚ)
    (fuel a : Nat) :
    steadyWaits delay (retryGo op d w fuel a).events
      = (if failStreakFrom op a fuel < fuel then [delay] else []) := by
  induction fuel generalizing a with
  | zero => simp [retryGo_zero, steadyWaits, failStreakFrom]
  | succ f ih =>
      cases hrec : attemptRecords (op a) with
      | some n =>
          rw [retryGo_succ_some op d w f a n hrec,
            failStreakFrom_some op a f n hrec]
          by_cases hn : n = 0 <;> simp [steadyWaits, hn]
      | none =>
          rw [failStreakFrom_none op a f hrec]
          cases f with
          | zero =>
              rw [retryGo_succ_none_zero op d w a hrec]
              simp [steadyWaits, failStreakFrom]
          | succ f' =>
              rw [retryGo_succ_none_succ op d w f' a hrec]
              have ih' := ih (a+1)
              simp only [steadyWaits, List.filterMap_cons] at ih' ⊢
              rw [ih']
              by_cases hlt : failStreakFrom op (a+1) (f'+1) < f' + 1 <;>
                simp [hlt, Nat.add_lt_add_iff_right]

/-- C9 amended: the coordinator's pacing is: exactly one steady-state sleep
(`time.sleep(delay)`) per work item, slept after the successful attempt and
only then (an exhausted item sleeps no steady delay at all); after the `i`-th
failed attempt, while retries remain, it sleeps only the larger backoff delay
`BASE_DELAY * 2 ^ (i - 1)` — instead of, not in addition to, the steady
delay — and after the final failed attempt it proceeds to the next work item
without any wait. -/
theorem pacing_steady_after_success_only (op : Nat → AttemptResult)
    (d w : Nat) (delay : ℚ) :
    steadyWaits delay (processItem op d w).events
      = (if failStreak op < MAX_RETRIES then [delay] else [])
    ∧ backoffWaits (processItem op d w).events
      = (List.range (min (failStreak op) (MAX_RETRIES - 1))).map
          (fun i => BASE_DELAY * 2 ^ i) := by
  constructor
  · rw [processItem, steadyWaits_retryGo, failStreak]
  · rw [processItem, backoffWaits_retryGo, failStreak]
    refine List.map_congr_left fun i _ => ?_
    simp [backoffDelay, Nat.add_sub_cancel_left]

end AFTT
